import Mathlib

/-!
Verification development for the crypto trading bot's execution core:
the simulated exchange (`PaperExchange`), the trade executor
(`TradeExecutor`), the Kelly position sizer (`KellyCalculator`) and the
ML signal predictor (`SignalPredictor`), embedded shallowly over ℚ.
Python floats are modelled as rationals, dictionaries as association
lists preserving insertion order, and raised exceptions as `Except`.
-/

namespace Crypto

/-- Balance dictionary: `asset ↦ quantity`, Python-dict style
(insertion order preserved, updates in place, new keys appended). -/
abbrev Balances := List (String × ℚ)

/-- Python `d.get(k, 0)` on a balances dictionary. -/
def getBal (b : Balances) (k : String) : ℚ :=
  match b.find? (fun p => p.1 == k) with
  | some p => p.2
  | none => 0

/-- Python `d[k] = v` on a balances dictionary: replace in place when the
key exists, append otherwise. -/
def setBal (b : Balances) (k : String) (v : ℚ) : Balances :=
  if b.any (fun p => p.1 == k) then
    b.map (fun p => if p.1 == k then (k, v) else p)
  else
    b ++ [(k, v)]

/-- Helper for `pySplit`: walk the character list, cutting at the
separator; `cur` is the current chunk, reversed. -/
def splitAux (c : Char) : List Char → List Char → List String
  | [], cur => [String.mk cur.reverse]
  | x :: xs, cur =>
    if x = c then String.mk cur.reverse :: splitAux c xs []
    else splitAux c xs (x :: cur)

/-- Python `s.split(c)` for a one-character separator, written by
structural recursion so it evaluates in the kernel. -/
def pySplit (s : String) (c : Char) : List String :=
  splitAux c s.data []

/-- Ticker returned by `fetch_ticker` (the fields the code uses). -/
structure Ticker where
  symbol : String
  last : ℚ
  bid : ℚ
  ask : ℚ
  deriving DecidableEq, Repr

/-- `PaperExchange.fetch_ticker`: on success return the live ticker; when
the underlying price-source fetch raises, swallow the error and return the
hard-coded default ticker (last 50000, bid 49990, ask 50010). The
`Option Ticker` argument is the outcome of the live fetch (`none` =
the fetch raised). -/
def fetch_ticker (priceSource : Option Ticker) (symbol : String) : Ticker :=
  match priceSource with
  | some t => t
  | none => ⟨symbol, 50000, 49990, 50010⟩

/-- A filled order record as built by `PaperExchange.create_order`. -/
structure Order where
  id : String
  symbol : String
  otype : String
  side : String
  amount : ℚ
  price : ℚ
  cost : ℚ
  status : String
  timestamp : Int
  datetimeStr : String
  deriving DecidableEq, Repr

/-- In-memory state of the simulated exchange: virtual balances, the
append-only order history and the monotonic order-id counter. -/
structure PaperState where
  balances : Balances
  order_history : List Order
  order_id_counter : Nat
  deriving DecidableEq, Repr

/-- Error raised by the simulated gateway. -/
inductive ExchangeError where
  | insufficientBalance (needed : ℚ) (available : ℚ)
  deriving DecidableEq, Repr

/-- Result of one `create_order` call: the returned order or the raised
exception, the (possibly unchanged) exchange state, and the snapshot
written by `_save_state` when the call reached it (`none` = the exception
propagated before any mutation, so no snapshot was written). -/
structure CreateOrderOutcome (σ : Type) where
  result : Except ExchangeError Order
  state : PaperState
  written : Option σ
  deriving Repr

/-- Execution price resolution of `create_order`: a market order, or a
missing price, consults the ticker (buy fills at `ask`, anything else at
`bid`); a limit order with a price fills at that price. -/
def execPrice (priceSource : Option Ticker) (symbol otype side : String)
    (price : Option ℚ) : ℚ :=
  if otype == "market" || price.isNone then
    let t := fetch_ticker priceSource symbol
    if side == "buy" then t.ask else t.bid
  else
    price.getD 0

/-- The balance update of `create_order` once the check passed: a buy
debits `total_cost` from the quote asset then credits `amount` to the
base asset; anything else debits `amount` from the base asset then
credits `total_cost` to the quote asset (each read re-reads the updated
dictionary, as the source does). -/
def applyFill (b : Balances) (base quote side : String)
    (amount total_cost : ℚ) : Balances :=
  if side == "buy" then
    let b1 := setBal b quote (getBal b quote - total_cost)
    setBal b1 base (getBal b1 base + amount)
  else
    let b1 := setBal b base (getBal b base - amount)
    setBal b1 quote (getBal b1 quote + total_cost)

/-- `PaperExchange.create_order`, embedded with the snapshot encoder
abstracted as `save`. Mirrors the source: split the symbol, resolve the
execution price, compute `total_cost = amount * execution_price`, check
the side's required balance and raise `InsufficientBalance` when short
(leaving the state untouched), otherwise debit/credit the two balances,
mint a fresh `PAPER_<n>` id, append the closed order (millisecond
timestamp `now`) to the history and persist the snapshot. -/
def create_order (save : PaperState → σ) (st : PaperState)
    (priceSource : Option Ticker) (now : Int) (nowIso : String)
    (symbol otype side : String) (amount : ℚ) (price : Option ℚ) :
    CreateOrderOutcome σ :=
  let parts := pySplit symbol '/'
  let base := parts[0]?.getD ""
  let quote := parts[1]?.getD ""
  let execution_price := execPrice priceSource symbol otype side price
  let total_cost := amount * execution_price
  if side == "buy" ∧ getBal st.balances quote < total_cost then
    ⟨.error (.insufficientBalance total_cost (getBal st.balances quote)), st, none⟩
  else if side != "buy" ∧ getBal st.balances base < amount then
    ⟨.error (.insufficientBalance amount (getBal st.balances base)), st, none⟩
  else
    let balances1 := applyFill st.balances base quote side amount total_cost
    let order : Order :=
      { id := "PAPER_" ++ toString st.order_id_counter
        symbol := symbol
        otype := otype
        side := side
        amount := amount
        price := execution_price
        cost := total_cost
        status := "closed"
        timestamp := now
        datetimeStr := nowIso }
    let st' : PaperState :=
      { balances := balances1
        order_history := st.order_history ++ [order]
        order_id_counter := st.order_id_counter + 1 }
    ⟨.ok order, st', some (save st')⟩

/-- `PaperExchange.fetch_balance`: the simulated gateway returns the
dictionary `{free: balances, used: {}, total: balances}` (the inner maps
are asset ↦ quantity). -/
def fetch_balance (st : PaperState) : List (String × Balances) :=
  [("free", st.balances), ("used", []), ("total", st.balances)]

/-! ML signal predictor (`app/core/ml/predictor.py`) -/

/-- Feature map passed to the predictor. -/
abbrev Features := List (String × ℚ)

/-- State of the `SignalPredictor` singleton. `enabled` is false when the
model bundle failed to load; `modelProba` abstracts the loaded model's
positive-class probability (the pickled random forest is an opaque blob,
so it is a parameter of the embedding); `min_probability` is the
threshold (default `0.6`). -/
structure PredictorState where
  enabled : Bool
  min_probability : ℚ
  modelProba : Features → ℚ

/-- `SignalPredictor.predict_proba`: the neutral probability `0.5` when
the model is not enabled, else the model's positive-class probability. -/
def predict_proba (p : PredictorState) (features : Features) : ℚ :=
  if p.enabled = false then 1/2 else p.modelProba features

/-- Result of `SignalPredictor.get_prediction_with_details`. -/
structure Prediction where
  probability : ℚ
  recommendation : String
  confidence : String
  should_trade : Bool
  deriving DecidableEq, Repr

/-- `SignalPredictor.get_prediction_with_details`: probability plus the
recommendation bands and `should_trade = (probability ≥ min_probability)`. -/
def get_prediction_with_details (p : PredictorState) (features : Features) :
    Prediction :=
  let proba := predict_proba p features
  let rc : String × String :=
    if proba ≥ 7/10 then ("STRONG_BUY", "HIGH")
    else if proba ≥ 6/10 then ("BUY", "MEDIUM")
    else if proba ≥ 4/10 then ("HOLD", "LOW")
    else ("AVOID", if proba < 3/10 then "MEDIUM" else "LOW")
  { probability := proba
    recommendation := rc.1
    confidence := rc.2
    should_trade := decide (proba ≥ p.min_probability) }

/-! Trade executor (`app/core/execution/trader.py`) -/

/-- Outcome of the kill-switch read from the ControlSurface (Redis):
`.error ()` is a failed read (connection error), `.ok none` an absent
key, `.ok (some v)` the stored value. -/
abbrev KSRead := Except Unit (Option String)

/-- Python `s.lower()`, written over the character list so it evaluates
in the kernel. -/
def pyLower (s : String) : String :=
  String.mk (s.data.map Char.toLower)

/-- The kill-switch check at the top of `place_order` and
`execute_strategy`: an absent value defaults to `"true"`; a failed read
is logged and trading continues (fail-open); trading is blocked exactly
when the lower-cased value is `"false"`. -/
def killSwitchBlocks (ks : KSRead) : Bool :=
  match ks with
  | .error _ => false
  | .ok v => pyLower (v.getD "true") == "false"

/-- The panic-gate condition of `place_order`: a panic score was
provided and is strictly above the threshold. -/
def panicGate (panic_score : Option ℚ) (threshold : ℚ) : Bool :=
  match panic_score with
  | some ps => decide (ps > threshold)
  | none => false

/-- Errors raised (not returned) by `TradeExecutor.place_order`. -/
inductive PlaceError where
  | tradingSuspended
  | panicTooHigh (score : ℚ) (threshold : ℚ)
  deriving DecidableEq, Repr

/-- The dictionary returned by `place_order`: either a success record or
an error record wrapping the gateway failure. -/
inductive OrderResult where
  | success (order_id : String) (symbol side : String) (amount : ℚ)
      (price : Option ℚ)
  | failure (err : ExchangeError) (symbol side : String)
  deriving DecidableEq, Repr

/-- The environment a `place_order` call runs in: the kill-switch read,
the panic threshold, the live price source answer and the clock. -/
structure ExecEnv where
  ks : KSRead
  panic_threshold : ℚ
  priceSource : Option Ticker
  now : Int
  nowIso : String

/-- `TradeExecutor.place_order` against the simulated gateway. Gate
order as in the source: (1) kill switch — raise `TradingSuspended` when
it blocks, before any gateway call; (2) panic gate — for a buy with a
provided `panic_score` above the threshold raise `PanicTooHigh`;
(3) dispatch — a limit order when `order_type = "limit"` and a price is
given, else a market order; gateway success becomes a success record,
a gateway exception is caught and becomes an error record. Returns the
record together with the gateway state after the call. -/
def place_order (env : ExecEnv) (st : PaperState) (symbol side : String)
    (amount : ℚ) (price : Option ℚ) (order_type : String)
    (panic_score : Option ℚ) :
    Except PlaceError (OrderResult × PaperState) :=
  if killSwitchBlocks env.ks then
    .error .tradingSuspended
  else if side == "buy" && panicGate panic_score env.panic_threshold then
    .error (.panicTooHigh (panic_score.getD 0) env.panic_threshold)
  else
    let co :=
      if order_type == "limit" ∧ price.isSome then
        create_order (fun s => s) st env.priceSource env.now env.nowIso
          symbol "limit" side amount price
      else
        create_order (fun s => s) st env.priceSource env.now env.nowIso
          symbol "market" side amount none
    match co.result with
    | .ok o =>
        .ok (.success o.id symbol side amount
          (match price with | some p => some p | none => some o.price), co.state)
    | .error e => .ok (.failure e symbol side, co.state)

/-- A strategy signal consumed by `execute_strategy`. -/
structure Signal where
  symbol : String
  action : String
  price : Option ℚ
  amount : ℚ
  features : Option Features

/-- One entry of the result list of `execute_strategy`: an ML-filtered
record `{status: filtered, reason: ml_filter, ...}`, a `place_order`
record, or an error record for a caught exception. -/
inductive StratResult where
  | filtered (probability : ℚ) (recommendation : String)
  | order (r : OrderResult)
  | errored (e : PlaceError)
  deriving DecidableEq, Repr

/-- The `status` field of a result entry of `execute_strategy`. -/
def StratResult.status : StratResult → String
  | .filtered _ _ => "filtered"
  | .order (.success _ _ _ _ _) => "success"
  | .order (.failure _ _ _) => "error"
  | .errored _ => "error"

/-- The `reason` field of a result entry (only filtered entries carry
one). -/
def StratResult.reason : StratResult → Option String
  | .filtered _ _ => some "ml_filter"
  | _ => none

/-- Per-signal body of the `execute_strategy` loop: apply the ML filter
only when the signal is a buy, the predictor was initialized, the model
is enabled and the signal carries features; a rejected signal yields a
`filtered` record and no order; otherwise `place_order` runs with the
tick's panic score, and a raised `TradingSuspended`/`PanicTooHigh` is
caught into an error record. -/
def processSignal (env : ExecEnv) (mlp : Option PredictorState)
    (panic_score : Option ℚ) (st : PaperState) (sig : Signal) :
    StratResult × PaperState :=
  let doFilter :=
    pyLower sig.action == "buy" ∧ mlp.isSome ∧
      (mlp.map (·.enabled)).getD false = true ∧ sig.features.isSome
  if doFilter then
    let pred := get_prediction_with_details (mlp.getD ⟨false, 6/10, fun _ => 0⟩)
      (sig.features.getD [])
    if pred.should_trade = false then
      (.filtered pred.probability pred.recommendation, st)
    else
      match place_order env st sig.symbol sig.action sig.amount sig.price
        (if sig.price.isSome then "limit" else "market") panic_score with
      | .ok (r, st') => (.order r, st')
      | .error e => (.errored e, st)
  else
    match place_order env st sig.symbol sig.action sig.amount sig.price
      (if sig.price.isSome then "limit" else "market") panic_score with
    | .ok (r, st') => (.order r, st')
    | .error e => (.errored e, st)

/-- Fold step of the `execute_strategy` signal loop: process one signal
and append its result record. -/
def stratStep (env : ExecEnv) (mlp : Option PredictorState)
    (panic_score : Option ℚ) (acc : List StratResult × PaperState)
    (sig : Signal) : List StratResult × PaperState :=
  let r := processSignal env mlp panic_score acc.2 sig
  (acc.1 ++ [r.1], r.2)

/-- `TradeExecutor.execute_strategy` against the simulated gateway:
check the kill switch once at entry (return no results when it blocks);
initialize the ML predictor when `use_ml_filter` — `set_threshold` is
called only when the model is enabled, so a disabled predictor keeps its
own threshold; then process the signals in order, threading the gateway
state. -/
def execute_strategy (env : ExecEnv) (pred : PredictorState)
    (use_ml_filter : Bool) (ml_threshold : ℚ) (panic_score : Option ℚ)
    (st : PaperState) (signals : List Signal) :
    List StratResult × PaperState :=
  if killSwitchBlocks env.ks then
    ([], st)
  else
    let mlp : Option PredictorState :=
      if use_ml_filter then
        some (if pred.enabled then { pred with min_probability := ml_threshold }
              else pred)
      else none
    signals.foldl (stratStep env mlp panic_score) ([], st)

/-- A position record as built by `TradeExecutor.get_open_positions`. -/
structure Position where
  symbol : String
  contracts : ℚ
  entryPrice : Option ℚ
  deriving DecidableEq, Repr

/-- `TradeExecutor.get_open_positions` against the simulated gateway.
`PaperExchange` has no `fetch_positions`, so the executor falls back to
`fetch_balance()` and iterates its items as `(asset, info)` pairs,
keeping those with `asset ≠ "USDT"` and `info.get('total', 0) > 0` —
note the items of the paper gateway's balance dictionary are the keys
`free`/`used`/`total` whose values are inner asset maps. -/
def get_open_positions (st : PaperState) : List Position :=
  (fetch_balance st).filterMap (fun p =>
    if p.1 ≠ "USDT" ∧ getBal p.2 "total" > 0 then
      some ⟨p.1 ++ "/USDT", getBal p.2 "total", none⟩
    else none)

/-- One record of the `close_all_positions` result list: a `place_order`
record tagged `reason = panic`, or an error record for a caught
exception. -/
inductive CloseResult where
  | closed (r : OrderResult)
  | errored (e : PlaceError) (symbol : String) (amount : ℚ)
  deriving DecidableEq, Repr

/-- Fold step of the `close_all_positions` loop over one position. -/
def closeStep (env : ExecEnv) (acc : List CloseResult × PaperState)
    (pos : Position) : List CloseResult × PaperState :=
  if pos.contracts ≤ 0 then acc
  else
    match place_order env acc.2 pos.symbol "sell" pos.contracts none
      "market" none with
    | .ok r => (acc.1 ++ [.closed r.1], r.2)
    | .error e => (acc.1 ++ [.errored e pos.symbol pos.contracts], acc.2)

/-- `TradeExecutor.close_all_positions` against the simulated gateway:
read the open positions; market-sell each position's `contracts`
(skipping non-positive amounts), catching any raised error into a
per-position error record; with no positions the result list is empty. -/
def close_all_positions (env : ExecEnv) (st : PaperState) :
    List CloseResult × PaperState :=
  (get_open_positions st).foldl (closeStep env) ([], st)

/-! Kelly position sizer (`app/core/risk/kelly.py`) -/

/-- `np.clip(x, lo, hi)`. -/
def clip (x lo hi : ℚ) : ℚ := min (max x lo) hi

/-- Configuration of a `KellyCalculator` (the constructor validates
`0 < fraction ≤ 1`; `max_position` defaults to `1`, `min_position`
to `0`). -/
structure KellyCalculator where
  fraction : ℚ
  max_position : ℚ
  min_position : ℚ
  deriving DecidableEq, Repr

/-- Errors raised by `KellyCalculator.calculate` on invalid input. -/
inductive KellyError where
  | winRateOutOfRange (w : ℚ)
  | negativeOdds (b : ℚ)
  deriving DecidableEq, Repr

/-- `KellyCalculator.calculate`: validate the inputs; `odds = 0` yields
`0`; otherwise compute `(win_rate·odds − (1−win_rate))/odds`, scale by
`fraction`, return `0` when the scaled value is negative, else clip it
to `[min_position, max_position]`. -/
def KellyCalculator.calculate (k : KellyCalculator) (win_rate odds : ℚ) :
    Except KellyError ℚ :=
  if ¬(0 ≤ win_rate ∧ win_rate ≤ 1) then
    .error (.winRateOutOfRange win_rate)
  else if odds < 0 then
    .error (.negativeOdds odds)
  else
    let lose_rate := 1 - win_rate
    if odds = 0 then .ok 0
    else
      let kelly_value := (win_rate * odds - lose_rate) / odds
      let adjusted_kelly := kelly_value * k.fraction
      if adjusted_kelly < 0 then .ok 0
      else .ok (clip adjusted_kelly k.min_position k.max_position)

/-! Virtual-ledger snapshot (`_save_state` / `_load_state`) -/

/-- JSON values as written by `json.dump` / read by `json.load`; Python
ints and floats are kept apart so the round trip is exact. -/
inductive Json where
  | jnull
  | jnum (q : ℚ)
  | jint (n : Int)
  | jstr (s : String)
  | jarr (xs : List Json)
  | jobj (fields : List (String × Json))
  deriving Repr

/-- Python `state.get(k, d)` on a parsed JSON object. -/
def jget (j : Json) (k : String) (d : Json) : Json :=
  match j with
  | .jobj fields =>
      match fields.find? (fun p => p.1 == k) with
      | some p => p.2
      | none => d
  | _ => d

/-- Read a JSON number as a Python float. -/
def jToQ (j : Json) : ℚ :=
  match j with
  | .jnum q => q
  | .jint n => (n : ℚ)
  | _ => 0

/-- Read a JSON number as a Python int. -/
def jToNat (j : Json) : Nat :=
  match j with
  | .jint n => n.toNat
  | _ => 0

/-- Read a JSON string. -/
def jToStr (j : Json) : String :=
  match j with
  | .jstr s => s
  | _ => ""

/-- Serialize the balances dictionary. -/
def encodeBalances (b : Balances) : Json :=
  .jobj (b.map (fun p => (p.1, .jnum p.2)))

/-- Parse the balances dictionary back from JSON. -/
def decodeBalances (j : Json) : Balances :=
  match j with
  | .jobj fields => fields.map (fun p => (p.1, jToQ p.2))
  | _ => []

/-- Serialize one order record the way `create_order` stores it. -/
def encodeOrder (o : Order) : Json :=
  .jobj [("id", .jstr o.id), ("symbol", .jstr o.symbol),
         ("type", .jstr o.otype), ("side", .jstr o.side),
         ("amount", .jnum o.amount), ("price", .jnum o.price),
         ("cost", .jnum o.cost), ("status", .jstr o.status),
         ("timestamp", .jint o.timestamp), ("datetime", .jstr o.datetimeStr)]

/-- Parse one order record back from JSON. -/
def decodeOrder (j : Json) : Order :=
  { id := jToStr (jget j "id" .jnull)
    symbol := jToStr (jget j "symbol" .jnull)
    otype := jToStr (jget j "type" .jnull)
    side := jToStr (jget j "side" .jnull)
    amount := jToQ (jget j "amount" .jnull)
    price := jToQ (jget j "price" .jnull)
    cost := jToQ (jget j "cost" .jnull)
    status := jToStr (jget j "status" .jnull)
    timestamp := match jget j "timestamp" .jnull with
                 | .jint n => n
                 | _ => 0
    datetimeStr := jToStr (jget j "datetime" .jnull) }

/-- `PaperExchange._save_state`: the snapshot written to the ledger file
is the JSON object `{balances, order_history, order_id_counter}` built
from the in-memory state. -/
def save_state (st : PaperState) : Json :=
  .jobj [("balances", encodeBalances st.balances),
         ("order_history", .jarr (st.order_history.map encodeOrder)),
         ("order_id_counter", .jint (st.order_id_counter : Int))]

/-- `PaperExchange._load_state`: rebuild the in-memory state from the
parsed ledger file, falling back to `{USDT: initial_balance}`, `[]`
and `1` for missing keys (via `state.get`). -/
def load_state (initial_balance : ℚ) (j : Json) : PaperState :=
  { balances :=
      match jget j "balances" .jnull with
      | .jnull => [("USDT", initial_balance)]
      | b => decodeBalances b
    order_history :=
      match jget j "order_history" .jnull with
      | .jarr xs => xs.map decodeOrder
      | _ => []
    order_id_counter := match jget j "order_id_counter" .jnull with
                        | .jint n => n.toNat
                        | _ => 1 }

/-- The state `PaperExchange.__init__` builds from a fresh ledger:
`{USDT: initial_balance}`, empty order history, counter `1`. -/
def paperInit (initial_balance : ℚ) : PaperState :=
  ⟨[("USDT", initial_balance)], [], 1⟩

/-- The arguments of one `create_order` call, for reasoning about
sequences of simulated-gateway orders. -/
structure OrderReq where
  priceSource : Option Ticker
  now : Int
  nowIso : String
  symbol : String
  otype : String
  side : String
  amount : ℚ
  price : Option ℚ

/-- Run a sequence of `create_order` calls, keeping the state left by
each call (a failed call leaves the state as it was). -/
def runOrders (st : PaperState) (reqs : List OrderReq) : PaperState :=
  reqs.foldl
    (fun s r => (create_order (fun x => x) s r.priceSource r.now r.nowIso
      r.symbol r.otype r.side r.amount r.price).state) st

/-- Every balance of the ledger is non-negative. -/
def allNonneg (b : Balances) : Prop := ∀ p ∈ b, 0 ≤ p.2

/-- No entry of an `execute_strategy` result list is an ML-filter
rejection. -/
def noFilteredEntry (rs : List StratResult) : Prop :=
  ∀ r ∈ rs, r.status ≠ "filtered"

/-! Claims -/

/-- C1: from the ledger `{USDT: 10000}` with an empty order log,
`create_order("BTC/USDT", limit, buy, 0.1, 50000)` succeeds with an
order record of status `closed` carrying the millisecond clock reading
and the fresh id `PAPER_1` from the monotonic counter; afterwards the
ledger is exactly `{USDT: 5000, BTC: 0.1}`, the log has length 1
holding that order, the counter advanced to 2 and the snapshot of the
new state was persisted. Holds for every clock reading and every answer
of the live price source (a limit order does not consult the ticker). -/
theorem C1_paper_buy_updates_ledger (now : Int) (iso : String)
    (ps : Option Ticker) :
    let out := create_order (fun s => s) (paperInit 10000) ps now iso
      "BTC/USDT" "limit" "buy" (1/10) (some 50000)
    out.result = .ok ⟨"PAPER_1", "BTC/USDT", "limit", "buy", 1/10,
      50000, 5000, "closed", now, iso⟩ ∧
    out.state.balances = [("USDT", 5000), ("BTC", 1/10)] ∧
    out.state.order_history.length = 1 ∧
    out.state.order_id_counter = 2 ∧
    out.written = some out.state := by
  have h : pySplit "BTC/USDT" '/' = ["BTC", "USDT"] := by decide
  refine ⟨?_, ?_, ?_, ?_, ?_⟩ <;>
    · simp [create_order, execPrice, fetch_ticker, h, getBal, setBal,
        applyFill, paperInit]
      norm_num
      try rfl

/-- C2: whenever the side's required asset is insufficient — for a buy,
quote balance below `amount × execution price`; for a sell, base balance
below `amount` — `create_order` raises `InsufficientBalance` and the
call leaves everything as it was: the returned state is the input state
(balances, order log and order-id counter untouched) and no snapshot is
written. -/
theorem C2_insufficient_balance_rejected (st : PaperState)
    (ps : Option Ticker) (now : Int) (iso : String)
    (symbol otype side : String) (amount : ℚ) (price : Option ℚ)
    (h : (side = "buy" ∧
            getBal st.balances ((pySplit symbol '/')[1]?.getD "") <
              amount * execPrice ps symbol otype side price) ∨
         (side = "sell" ∧
            getBal st.balances ((pySplit symbol '/')[0]?.getD "") < amount)) :
    ∃ needed available,
      create_order save_state st ps now iso symbol otype side amount price
        = ⟨.error (.insufficientBalance needed available), st, none⟩ := by
  rcases h with ⟨hs, hlt⟩ | ⟨hs, hlt⟩ <;> subst hs
  · exact ⟨amount * execPrice ps symbol otype "buy" price,
      getBal st.balances ((pySplit symbol '/')[1]?.getD ""),
      by simp [create_order, hlt]⟩
  · exact ⟨amount, getBal st.balances ((pySplit symbol '/')[0]?.getD ""),
      by simp [create_order, hlt]⟩

/-- C2 witness: from the ledger `{USDT: 1000}`, the buy of 1 BTC at
50000 fails with `InsufficientBalance`, the ledger is unchanged and no
log entry or snapshot is produced. -/
theorem C2_insufficient_balance_rejected_witness :
    ∃ needed available,
      create_order save_state (paperInit 1000) none 0 ""
        "BTC/USDT" "limit" "buy" 1 (some 50000)
        = ⟨.error (.insufficientBalance needed available),
            paperInit 1000, none⟩ :=
  C2_insufficient_balance_rejected (paperInit 1000) none 0 ""
    "BTC/USDT" "limit" "buy" 1 (some 50000)
    (.inl ⟨rfl, by
      have h : pySplit "BTC/USDT" '/' = ["BTC", "USDT"] := by decide
      simp [h, getBal, paperInit, execPrice]
      norm_num⟩)

/-- C10: when the live price source fails, `fetch_ticker` propagates no
error and answers the fixed default ticker (last 50000, bid 49990,
ask 50010); consequently a market order placed during the outage fills
silently at the fabricated price: a market buy from `{USDT: 10000}`
closes at 50010 (the default ask) and a market sell of 1 BTC closes at
49990 (the default bid). -/
theorem C10_price_outage_default_ticker (symbol : String) (now : Int)
    (iso : String) :
    fetch_ticker none symbol = ⟨symbol, 50000, 49990, 50010⟩ ∧
    (let out := create_order (fun s => s) (paperInit 10000) none now iso
       "BTC/USDT" "market" "buy" (1/10) none
     out.result = .ok ⟨"PAPER_1", "BTC/USDT", "market", "buy", 1/10,
       50010, 5001, "closed", now, iso⟩) ∧
    (let out := create_order (fun s => s)
       ⟨[("USDT", 0), ("BTC", 1)], [], 1⟩ none now iso
       "BTC/USDT" "market" "sell" 1 none
     out.result = .ok ⟨"PAPER_1", "BTC/USDT", "market", "sell", 1,
       49990, 49990, "closed", now, iso⟩) := by
  have h : pySplit "BTC/USDT" '/' = ["BTC", "USDT"] := by decide
  refine ⟨rfl, ?_, ?_⟩ <;>
    · simp [create_order, execPrice, fetch_ticker, h, getBal, setBal,
        applyFill, paperInit]
      norm_num
      try rfl

/-- C9: for `win_rate ∈ [0,1]` and `odds ≥ 0`, with a validated
configuration (`fraction > 0`, `min_position = 0`, `max_position ≥ 0`),
`KellyCalculator.calculate` raises nothing and returns a value in
`[0, max_position]` equal to the Kelly formula
`(win_rate·odds − (1−win_rate))/odds` scaled by `fraction` and clipped
(`0` when negative or when `odds = 0`); it is `0` whenever
`win_rate = 0` or `odds = 0`; and the four literal cases of the spec
hold: `(1, 1) ↦ 1`, `(0.5, 1) ↦ 0`, `(0.6, 1)` with fraction `0.5`
`↦ 0.1`, `(0.3, 1) ↦ 0`. -/
theorem C9_kelly_calculate (k : KellyCalculator) (w b : ℚ)
    (hf : 0 < k.fraction) (hmin : k.min_position = 0)
    (hmax : 0 ≤ k.max_position) (hw0 : 0 ≤ w) (hw1 : w ≤ 1) (hb : 0 ≤ b) :
    (∃ v, k.calculate w b = .ok v ∧ 0 ≤ v ∧ v ≤ k.max_position ∧
      ((w = 0 ∨ b = 0) → v = 0) ∧
      v = if b = 0 then 0
          else if (w * b - (1 - w)) / b * k.fraction < 0 then 0
          else clip ((w * b - (1 - w)) / b * k.fraction) 0 k.max_position) ∧
    KellyCalculator.calculate ⟨1, 1, 0⟩ 1 1 = .ok 1 ∧
    KellyCalculator.calculate ⟨1, 1, 0⟩ (1/2) 1 = .ok 0 ∧
    KellyCalculator.calculate ⟨1/2, 1, 0⟩ (3/5) 1 = .ok (1/10) ∧
    KellyCalculator.calculate ⟨1, 1, 0⟩ (3/10) 1 = .ok 0 := by
  refine ⟨?_, by norm_num [KellyCalculator.calculate, clip],
    by norm_num [KellyCalculator.calculate, clip],
    by norm_num [KellyCalculator.calculate, clip],
    by norm_num [KellyCalculator.calculate, clip]⟩
  unfold KellyCalculator.calculate
  rw [if_neg (not_not.mpr ⟨hw0, hw1⟩), if_neg (not_lt.mpr hb)]
  by_cases hb0 : b = 0
  · rw [if_pos hb0]
    exact ⟨0, rfl, le_refl 0, hmax, fun _ => rfl, by rw [if_pos hb0]⟩
  · have hbpos : 0 < b := lt_of_le_of_ne hb (Ne.symm hb0)
    rw [if_neg hb0]
    by_cases hneg : (w * b - (1 - w)) / b * k.fraction < 0
    · rw [if_pos hneg]
      exact ⟨0, rfl, le_refl 0, hmax, fun _ => rfl,
        by rw [if_neg hb0, if_pos hneg]⟩
    · rw [if_neg hneg]
      refine ⟨clip ((w * b - (1 - w)) / b * k.fraction) k.min_position
        k.max_position, rfl, ?_, ?_, ?_, ?_⟩
      · rw [hmin]
        exact le_min (le_max_right _ _) hmax
      · exact min_le_right _ _
      · rintro (hw | hb2)
        · exfalso
          apply hneg
          subst hw
          have h1 : (0 * b - (1 - 0)) / b < 0 :=
            div_neg_of_neg_of_pos (by norm_num) hbpos
          exact mul_neg_of_neg_of_pos h1 hf
        · exact absurd hb2 hb0
      · rw [if_neg hb0, if_neg hneg, hmin]

/-- C9 witness: the fraction-0.5 configuration at
`(win_rate, odds) = (0.6, 1)` satisfies the hypotheses and the bound. -/
theorem C9_kelly_calculate_witness :
    ∃ v, KellyCalculator.calculate ⟨1/2, 1, 0⟩ (3/5) 1 = .ok v ∧
      0 ≤ v ∧ v ≤ (1 : ℚ) ∧
      ((3/5 : ℚ) = 0 ∨ (1 : ℚ) = 0 → v = 0) ∧
      v = if (1 : ℚ) = 0 then 0
          else if (3/5 * 1 - (1 - 3/5)) / 1 * (1/2 : ℚ) < 0 then 0
          else clip ((3/5 * 1 - (1 - 3/5)) / 1 * (1/2)) 0 1 :=
  (C9_kelly_calculate ⟨1/2, 1, 0⟩ (3/5) 1 (by norm_num) rfl
    (by norm_num) (by norm_num) (by norm_num) (by norm_num)).1

/-- C7: `place_order` consults `TRADING_ENABLED` first. When the value
reads `"false"` the call fails with `TradingSuspended` before any
gateway call, whatever the other arguments and the gateway state; when
the value is absent, or the read itself fails, the call behaves exactly
as if the flag read `"true"` (fail-open). -/
theorem C7_kill_switch_fail_open (pt : ℚ) (ps : Option Ticker)
    (now : Int) (iso : String) (st : PaperState) (symbol side : String)
    (amount : ℚ) (price : Option ℚ) (otype : String)
    (pscore : Option ℚ) :
    place_order ⟨.ok (some "false"), pt, ps, now, iso⟩ st symbol side
      amount price otype pscore = .error .tradingSuspended ∧
    place_order ⟨.ok none, pt, ps, now, iso⟩ st symbol side
      amount price otype pscore =
      place_order ⟨.ok (some "true"), pt, ps, now, iso⟩ st symbol side
        amount price otype pscore ∧
    place_order ⟨.error (), pt, ps, now, iso⟩ st symbol side
      amount price otype pscore =
      place_order ⟨.ok (some "true"), pt, ps, now, iso⟩ st symbol side
        amount price otype pscore := by
  have hf : killSwitchBlocks (.ok (some "false")) = true := by decide
  have ht : killSwitchBlocks (.ok (some "true")) = false := by decide
  have hn : killSwitchBlocks (.ok none) = false := by decide
  have he : killSwitchBlocks (.error ()) = false := by decide
  refine ⟨?_, ?_, ?_⟩ <;> simp [place_order, hf, ht, hn, he]

/-- When both gates pass (kill switch not blocking, panic gate not
firing) `place_order` always returns a record: gateway failures are
caught, never re-raised. -/
lemma place_order_gates_pass (env : ExecEnv) (st : PaperState)
    (symbol side : String) (amount : ℚ) (price : Option ℚ)
    (otype : String) (pscore : Option ℚ)
    (h1 : killSwitchBlocks env.ks = false)
    (h2 : (side == "buy" && panicGate pscore env.panic_threshold) = false) :
    ∃ r st2, place_order env st symbol side amount price otype pscore
      = .ok (r, st2) := by
  simp only [place_order, h1, h2, Bool.false_eq_true, if_false]
  split <;> exact ⟨_, _, rfl⟩

/-- C8: with a kill switch that does not block, a buy fails with
`PanicTooHigh` exactly when a panic score is provided and is strictly
above the threshold, while a sell never raises `PanicTooHigh` whatever
the score; and on the spec's literal scenario (score 0.85, threshold
0.80) the buy fails while the identical call with `side = sell`, from a
ledger holding the 0.1 BTC, returns a success record. -/
theorem C8_panic_gate_buy_only (pt : ℚ) (ps : Option Ticker) (now : Int)
    (iso : String) (st : PaperState) (symbol : String) (amount : ℚ)
    (price : Option ℚ) (otype : String) (pscore : Option ℚ)
    (ks : KSRead) (hks : killSwitchBlocks ks = false) :
    ((∃ s t, place_order ⟨ks, pt, ps, now, iso⟩ st symbol "buy" amount
        price otype pscore = .error (.panicTooHigh s t)) ↔
      (∃ p, pscore = some p ∧ pt < p)) ∧
    (∀ s t, place_order ⟨ks, pt, ps, now, iso⟩ st symbol "sell" amount
        price otype pscore ≠ .error (.panicTooHigh s t)) ∧
    place_order ⟨.ok none, 4/5, none, now, iso⟩ (paperInit 10000)
      "BTC/USDT" "buy" (1/10) (some 50000) "limit" (some (17/20))
      = .error (.panicTooHigh (17/20) (4/5)) ∧
    (∃ st2, place_order ⟨.ok none, 4/5, none, now, iso⟩
      ⟨[("USDT", 10000), ("BTC", 1/10)], [], 1⟩
      "BTC/USDT" "sell" (1/10) (some 50000) "limit" (some (17/20))
      = .ok (.success "PAPER_1" "BTC/USDT" "sell" (1/10) (some 50000),
             st2)) := by
  have hsplit : pySplit "BTC/USDT" '/' = ["BTC", "USDT"] := by decide
  refine ⟨⟨?_, ?_⟩, ?_, ?_, ?_⟩
  · intro ⟨s, t, heq⟩
    by_cases hg : panicGate pscore pt = true
    · cases pscore with
      | none => simp [panicGate] at hg
      | some p => exact ⟨p, rfl, by simpa [panicGate] using hg⟩
    · exfalso
      rw [Bool.not_eq_true] at hg
      obtain ⟨r, st2, hok⟩ := place_order_gates_pass ⟨ks, pt, ps, now, iso⟩
        st symbol "buy" amount price otype pscore hks (by simp [hg])
      rw [hok] at heq
      cases heq
  · intro ⟨p, hp, hlt⟩
    subst hp
    rw [place_order, if_neg (by simp [hks]),
      if_pos (by simp [panicGate, hlt])]
    exact ⟨p, pt, rfl⟩
  · intro s t heq
    obtain ⟨r, st2, hok⟩ := place_order_gates_pass ⟨ks, pt, ps, now, iso⟩
      st symbol "sell" amount price otype pscore hks (by simp)
    rw [hok] at heq
    cases heq
  · simp [place_order, killSwitchBlocks, panicGate, pyLower]
    norm_num
  · refine ⟨⟨[("USDT", 15000), ("BTC", 0)],
      [⟨"PAPER_1", "BTC/USDT", "limit", "sell", 1/10, 50000, 5000,
        "closed", now, iso⟩], 2⟩, ?_⟩
    simp [place_order, killSwitchBlocks, panicGate, pyLower, create_order,
      execPrice, hsplit, getBal, setBal, applyFill]
    norm_num
    try rfl

/-- C8 witness: at the spec's literal scenario the kill switch does not
block and the buy with score 0.85 against threshold 0.80 fails with
`PanicTooHigh`. -/
theorem C8_panic_gate_buy_only_witness :
    killSwitchBlocks (.ok none) = false ∧
    place_order ⟨.ok none, 4/5, none, 0, ""⟩ (paperInit 10000)
      "BTC/USDT" "buy" (1/10) (some 50000) "limit" (some (17/20))
      = .error (.panicTooHigh (17/20) (4/5)) :=
  ⟨by decide,
   (C8_panic_gate_buy_only (4/5) none 0 "" (paperInit 10000) "BTC/USDT"
     (1/10) (some 50000) "limit" (some (17/20)) (.ok none)
     (by decide)).2.2.1⟩

/-- A predictor whose model bundle failed to load: disabled, with the
constructor's default threshold `0.6`. -/
def mlDisabled : PredictorState := ⟨false, 6/10, fun _ => 0⟩

/-- C3 counterexample: with the model disabled and threshold 0.6, a buy
signal carrying features is NOT recorded as
`{status: filtered, reason: ml_filter}` — `execute_strategy` skips the
ML filter entirely when the model is disabled and places the order,
producing a success record and one ledger order. -/
theorem C3_disabled_filter_counterexample :
    let env0 : ExecEnv := ⟨.ok none, 4/5, none, 0, ""⟩
    let sig : Signal := ⟨"BTC/USDT", "buy", some 50000, 1/10,
      some [("rsi", 45)]⟩
    let out := execute_strategy env0 mlDisabled true (6/10) none
      (paperInit 10000) [sig]
    out.1 = [.order (.success "PAPER_1" "BTC/USDT" "buy" (1/10)
      (some 50000))] ∧
    out.2.order_history.length = 1 := by
  have hsplit : pySplit "BTC/USDT" '/' = ["BTC", "USDT"] := by decide
  refine ⟨?_, ?_⟩ <;>
    · simp [execute_strategy, stratStep, processSignal, place_order,
        killSwitchBlocks, pyLower, panicGate, create_order, execPrice,
        hsplit, getBal, setBal, applyFill, mlDisabled, paperInit]
      norm_num
      try rfl

/-- A per-signal result is never `filtered` when the predictor handed to
the loop is absent or disabled. -/
lemma processSignal_status_not_filtered (env : ExecEnv)
    (mlp : Option PredictorState) (panic : Option ℚ) (st : PaperState)
    (sig : Signal) (h : (mlp.map (·.enabled)).getD false = false) :
    (processSignal env mlp panic st sig).1.status ≠ "filtered" := by
  rw [processSignal, if_neg (by simp [h])]
  split
  · rename_i r st2 heq
    cases r <;> simp [StratResult.status]
  · simp [StratResult.status]

/-- The signal fold preserves the absence of `filtered` entries when the
predictor is absent or disabled. -/
lemma foldl_noFiltered (env : ExecEnv) (mlp : Option PredictorState)
    (panic : Option ℚ) (h : (mlp.map (·.enabled)).getD false = false) :
    ∀ (signals : List Signal) (acc : List StratResult × PaperState),
      noFilteredEntry acc.1 →
      noFilteredEntry (signals.foldl (stratStep env mlp panic) acc).1 := by
  intro signals
  induction signals with
  | nil => exact fun acc hacc => hacc
  | cons sig rest ih =>
      intro acc hacc
      apply ih
      intro r hr
      simp only [stratStep] at hr
      rcases List.mem_append.mp hr with h1 | h2
      · exact hacc r h1
      · rw [List.mem_singleton.mp h2]
        exact processSignal_status_not_filtered env mlp panic acc.2 sig h

/-- C3 amended: with the model disabled and threshold 0.6,
`decide(features).should_trade` is false for every feature vector
(`0.5 < 0.6`); but `execute_strategy` applies the ML filter only when
the model is enabled, so with a disabled model no signal — buy or not —
is recorded as `{status: filtered, reason: ml_filter}`: the orders are
placed instead. -/
theorem C3_disabled_model_never_filters (mp : Features → ℚ)
    (env : ExecEnv) (pred : PredictorState) (hdis : pred.enabled = false)
    (ml_threshold : ℚ) (panic : Option ℚ) (st : PaperState)
    (signals : List Signal) :
    (∀ features,
      (get_prediction_with_details ⟨false, 6/10, mp⟩ features).should_trade
        = false) ∧
    noFilteredEntry
      (execute_strategy env pred true ml_threshold panic st signals).1 := by
  constructor
  · intro f
    simp [get_prediction_with_details, predict_proba]
    norm_num
  · rw [execute_strategy]
    split
    · intro r hr
      cases hr
    · rw [if_pos rfl, if_neg (by simp [hdis])]
      apply foldl_noFiltered env (some pred) panic (by simp [hdis])
      intro r hr
      cases hr

/-- C3 witness: the disabled predictor satisfies the hypothesis and the
concrete buy signal is not filtered. -/
theorem C3_disabled_model_never_filters_witness :
    mlDisabled.enabled = false ∧
    noFilteredEntry (execute_strategy ⟨.ok none, 4/5, none, 0, ""⟩
      mlDisabled true (6/10) none (paperInit 10000)
      [⟨"BTC/USDT", "buy", some 50000, 1/10, some [("rsi", 45)]⟩]).1 :=
  ⟨rfl,
   (C3_disabled_model_never_filters (fun _ => 0) ⟨.ok none, 4/5, none, 0, ""⟩
     mlDisabled rfl (6/10) none (paperInit 10000)
     [⟨"BTC/USDT", "buy", some 50000, 1/10, some [("rsi", 45)]⟩]).2⟩

/-- C4: on the simulated gateway the balance-derived position fallback
finds nothing — `fetch_balance` returns `{free, used, total}` maps of
assets while `get_open_positions` expects per-asset `{free, used,
total}` entries — so from a ledger holding `{USDT: 5000, BTC: 0.1}`,
`close_all_positions` derives no position, sells nothing and returns an
empty result list, leaving the BTC balance untouched, whatever the
environment. -/
theorem C4_close_all_positions_paper_noop (env : ExecEnv) :
    (0 : ℚ) < getBal [("USDT", 5000), ("BTC", 1/10)] "BTC" ∧
    get_open_positions ⟨[("USDT", 5000), ("BTC", 1/10)], [], 2⟩ = [] ∧
    close_all_positions env ⟨[("USDT", 5000), ("BTC", 1/10)], [], 2⟩
      = ([], ⟨[("USDT", 5000), ("BTC", 1/10)], [], 2⟩) := by
  refine ⟨?_, ?_, ?_⟩ <;>
    · simp [close_all_positions, get_open_positions, fetch_balance,
        getBal, closeStep]
      try norm_num

/-- A dictionary lookup on an everywhere-non-negative ledger is
non-negative (the default for a missing key is `0`). -/
lemma getBal_nonneg (b : Balances) (k : String) (h : allNonneg b) :
    0 ≤ getBal b k := by
  rw [getBal]
  cases hf : b.find? (fun p => p.1 == k) with
  | none => exact le_refl 0
  | some p => exact h p (List.mem_of_find?_eq_some hf)

/-- Writing a non-negative value keeps the ledger non-negative. -/
lemma allNonneg_setBal (b : Balances) (k : String) (v : ℚ)
    (h : allNonneg b) (hv : 0 ≤ v) : allNonneg (setBal b k v) := by
  rw [setBal]
  split
  · intro p hp
    rcases List.mem_map.mp hp with ⟨q, hq, hmap⟩
    by_cases hqk : (q.1 == k) = true
    · rw [if_pos hqk] at hmap
      rw [← hmap]
      exact hv
    · rw [if_neg hqk] at hmap
      rw [← hmap]
      exact h q hq
  · intro p hp
    rcases List.mem_append.mp hp with h1 | h2
    · exact h p h1
    · rw [List.mem_singleton.mp h2]
      exact hv

/-- The balance update of a checked order keeps every balance
non-negative, provided the amount and cost are non-negative and the
side's sufficiency check passed. -/
lemma applyFill_nonneg (b : Balances) (base quote side : String)
    (amount cost : ℚ) (h : allNonneg b) (ha : 0 ≤ amount) (hc : 0 ≤ cost)
    (hbuy : ¬((side == "buy") = true ∧ getBal b quote < cost))
    (hsell : ¬((side != "buy") = true ∧ getBal b base < amount)) :
    allNonneg (applyFill b base quote side amount cost) := by
  rw [applyFill]
  split
  · rename_i hs
    have hq : cost ≤ getBal b quote := by
      by_contra hlt
      exact hbuy ⟨hs, not_le.mp hlt⟩
    have h1 : allNonneg (setBal b quote (getBal b quote - cost)) :=
      allNonneg_setBal b quote _ h (by linarith)
    exact allNonneg_setBal _ base _ h1
      (add_nonneg (getBal_nonneg _ base h1) ha)
  · rename_i hs
    have hbase : amount ≤ getBal b base := by
      by_contra hlt
      refine hsell ⟨?_, not_le.mp hlt⟩
      simp [bne] at hs ⊢
      exact hs
    have h1 : allNonneg (setBal b base (getBal b base - amount)) :=
      allNonneg_setBal b base _ h (by linarith)
    exact allNonneg_setBal _ quote _ h1
      (add_nonneg (getBal_nonneg _ quote h1) hc)

/-- One `create_order` call — successful or refused — keeps the ledger
non-negative when the order's amount and execution price are
non-negative. -/
lemma create_order_state_nonneg {σ : Type} (save : PaperState → σ)
    (st : PaperState) (ps : Option Ticker) (now : Int) (iso : String)
    (symbol otype side : String) (amount : ℚ) (price : Option ℚ)
    (hb : allNonneg st.balances) (ha : 0 ≤ amount)
    (hp : 0 ≤ execPrice ps symbol otype side price) :
    allNonneg (create_order save st ps now iso symbol otype side amount
      price).state.balances := by
  rw [create_order]
  split
  · exact hb
  · split
    · exact hb
    · rename_i h1 h2
      exact applyFill_nonneg _ _ _ _ _ _ hb ha (mul_nonneg ha hp) h1 h2

/-- C5 counterexample: the claim quantifies over all `create_order`
calls, but the code never validates the sign of the order's amount or
price; starting from the non-negative ledger `{USDT: 1000}`, a single
buy of amount `−1` at price `1` passes the sufficiency check (its cost
`−1` is below the balance) and drives the BTC balance to `−1`. -/
theorem C5_negative_amount_counterexample :
    allNonneg (paperInit 1000).balances ∧
    ¬ allNonneg (runOrders (paperInit 1000)
      [⟨none, 0, "", "BTC/USDT", "limit", "buy", -1, some 1⟩]).balances := by
  have hsplit : pySplit "BTC/USDT" '/' = ["BTC", "USDT"] := by decide
  have heval : getBal (runOrders (paperInit 1000)
      [⟨none, 0, "", "BTC/USDT", "limit", "buy", -1, some 1⟩]).balances
      "BTC" = -1 := by
    simp [runOrders, create_order, execPrice, hsplit, getBal, setBal,
      applyFill, paperInit, List.find?]
    try norm_num
  constructor
  · intro p hp
    simp [paperInit] at hp
    rw [hp]
    norm_num
  · intro hall
    have h2 := getBal_nonneg _ "BTC" hall
    rw [heval] at h2
    norm_num at h2

/-- C5 amended: after any sequence of simulated-gateway `create_order`
calls whose amounts and execution prices are non-negative, starting
from a non-negative ledger, every balance in the virtual ledger is
non-negative (refused orders leave the state untouched). -/
theorem C5_ledger_nonneg_for_valid_orders (st : PaperState)
    (reqs : List OrderReq) (h0 : allNonneg st.balances)
    (hreq : ∀ r ∈ reqs, 0 ≤ r.amount ∧
      0 ≤ execPrice r.priceSource r.symbol r.otype r.side r.price) :
    allNonneg (runOrders st reqs).balances := by
  induction reqs generalizing st with
  | nil => exact h0
  | cons r rest ih =>
      rw [runOrders, List.foldl_cons]
      exact ih _
        (create_order_state_nonneg _ st r.priceSource r.now r.nowIso
          r.symbol r.otype r.side r.amount r.price h0
          (hreq r (List.mem_cons_self r rest)).1
          (hreq r (List.mem_cons_self r rest)).2)
        (fun q hq => hreq q (List.mem_cons_of_mem r hq))

/-- C5 witness: the spec's paper-buy scenario (0.1 BTC at 50000 from
`{USDT: 10000}`) satisfies the hypotheses and leaves every balance
non-negative. -/
theorem C5_ledger_nonneg_for_valid_orders_witness :
    allNonneg (runOrders (paperInit 10000)
      [⟨none, 0, "", "BTC/USDT", "limit", "buy", 1/10,
        some 50000⟩]).balances :=
  C5_ledger_nonneg_for_valid_orders (paperInit 10000)
    [⟨none, 0, "", "BTC/USDT", "limit", "buy", 1/10, some 50000⟩]
    (by intro p hp
        simp [paperInit] at hp
        rw [hp]
        norm_num)
    (by intro r hr
        simp at hr
        rw [hr]
        refine ⟨by norm_num, ?_⟩
        simp [execPrice]
        try norm_num)

/-- Decoding an encoded order record gives the record back. -/
lemma decode_encode_order (o : Order) : decodeOrder (encodeOrder o) = o := by
  cases o
  simp [decodeOrder, encodeOrder, jget, jToStr, jToQ, List.find?]

/-- Decoding an encoded balances dictionary gives the dictionary back. -/
lemma decode_encode_balances (b : Balances) :
    decodeBalances (.jobj (b.map (fun p => (p.1, Json.jnum p.2)))) = b := by
  induction b with
  | nil => rfl
  | cons p rest ih =>
      simp only [decodeBalances, List.map_cons] at ih ⊢
      rw [ih]
      simp [jToQ]

/-- The save/load pair on the ledger file is a round trip: loading a
written snapshot reproduces the exact in-memory state, whatever the
configured initial balance. -/
lemma save_load_roundtrip (initB : ℚ) (st : PaperState) :
    load_state initB (save_state st) = st := by
  have hmap : ∀ h : List Order,
      List.map (decodeOrder ∘ encodeOrder) h = h := by
    intro h
    have hco : decodeOrder ∘ encodeOrder = id :=
      funext (fun o => by simp [Function.comp, decode_encode_order])
    rw [hco, List.map_id]
  cases st with
  | mk b h c =>
      simp [load_state, save_state, jget, List.find?, List.map_map,
        encodeBalances, decode_encode_balances, hmap]

/-- A successful `create_order` writes exactly the snapshot of its new
state. -/
lemma create_order_written_eq {σ : Type} (save : PaperState → σ)
    (st : PaperState) (ps : Option Ticker) (now : Int) (iso : String)
    (symbol otype side : String) (amount : ℚ) (price : Option ℚ) (o : Order)
    (hok : (create_order save st ps now iso symbol otype side amount
      price).result = .ok o) :
    (create_order save st ps now iso symbol otype side amount
      price).written = some (save (create_order save st ps now iso symbol
        otype side amount price).state) := by
  simp only [create_order] at hok ⊢
  split at hok
  · exact absurd hok (by simp)
  · split at hok
    · exact absurd hok (by simp)
    · rename_i h1 h2
      rw [if_neg h1, if_neg h2]

/-- C6: after every successful simulated-gateway `create_order`, the
snapshot persisted to the ledger file, when loaded back, reproduces
exactly the in-memory state — balances, order log and order-id counter. -/
theorem C6_snapshot_roundtrip (initB : ℚ) (st : PaperState)
    (ps : Option Ticker) (now : Int) (iso : String)
    (symbol otype side : String) (amount : ℚ) (price : Option ℚ)
    (o : Order)
    (hok : (create_order save_state st ps now iso symbol otype side
      amount price).result = .ok o) :
    ∃ j, (create_order save_state st ps now iso symbol otype side amount
        price).written = some j ∧
      load_state initB j = (create_order save_state st ps now iso symbol
        otype side amount price).state :=
  ⟨save_state (create_order save_state st ps now iso symbol otype side
      amount price).state,
   create_order_written_eq save_state st ps now iso symbol otype side
     amount price o hok,
   save_load_roundtrip initB _⟩

/-- C6 witness: the snapshot written by the paper buy of 0.1 BTC at
50000 from `{USDT: 10000}` loads back to the post-order state. -/
theorem C6_snapshot_roundtrip_witness :
    ∃ j, (create_order save_state (paperInit 10000) none 0 ""
        "BTC/USDT" "limit" "buy" (1/10) (some 50000)).written = some j ∧
      load_state 10000 j = (create_order save_state (paperInit 10000)
        none 0 "" "BTC/USDT" "limit" "buy" (1/10) (some 50000)).state :=
  C6_snapshot_roundtrip 10000 (paperInit 10000) none 0 ""
    "BTC/USDT" "limit" "buy" (1/10) (some 50000)
    ⟨"PAPER_1", "BTC/USDT", "limit", "buy", 1/10, 50000, 5000,
      "closed", 0, ""⟩
    (by
      have h : pySplit "BTC/USDT" '/' = ["BTC", "USDT"] := by decide
      simp [create_order, execPrice, fetch_ticker, h, getBal, setBal,
        applyFill, paperInit]
      norm_num
      try rfl)

end Crypto
